import Mathlib

/-!
Shallow embedding of `confluence_markdown_exporter/main.py`.

The CLI layer is modelled as pure functions over strings plus an event-trace
semantics for the export commands.  External collaborators (`Page`, `Space`,
`Organization`, `SettingsStore`) are opaque; a command is embedded as the list
of calls it makes to them, in order.  Machine strings are Lean `String`
(a list of characters).

Python `str.isdigit` and `int` are Unicode-aware: `str.isdigit` is true for
characters of Unicode numeric type Decimal or Digit, while `int` accepts only
Decimal (category Nd) digits.  The two classes differ: `"²".isdigit()` is
`True` yet `int("²")` raises `ValueError`, and `"٣".isdigit()` is `True` with
`int("٣") == 3`.  The character tables below embed this classification
exactly on the ASCII range plus the non-ASCII witnesses used here (the
Arabic-Indic decimal digits U+0660–U+0669 and the superscript/subscript
digits U+00B2, U+00B3, U+00B9, U+2070, U+2074–U+2079, U+2080–U+2089);
characters outside this documented set are classified as non-digits, so
every universal theorem below restricts its tokens to ASCII characters,
where the embedding coincides with Python on all inputs.
-/

namespace CME

/-- Per-character embedding of the digits Python `int` accepts (Unicode
category Nd, numeric type Decimal), with their decimal value: the ASCII
digits `0`-`9` and, of the non-ASCII Nd characters, the Arabic-Indic digits
U+0660–U+0669 (see the module comment for the scope). -/
def pyDecimalValue (c : Char) : Option Nat :=
  if c.isDigit then some (c.toNat - '0'.toNat)
  else if 0x660 ≤ c.toNat && c.toNat ≤ 0x669 then some (c.toNat - 0x660)
  else none

/-- Per-character embedding of Python `str.isdigit`: true for decimal
digits and for characters of Unicode numeric type Digit, here the
superscript and subscript digits U+00B2/U+00B3/U+00B9, U+2070,
U+2074–U+2079 and U+2080–U+2089 (see the module comment for the scope).
These are `isdigit`-true but rejected by `int`. -/
def pyDigitChar (c : Char) : Bool :=
  (pyDecimalValue c).isSome
    || (0xB2 ≤ c.toNat && c.toNat ≤ 0xB3)
    || (0xB9 ≤ c.toNat && c.toNat ≤ 0xB9)
    || (0x2070 ≤ c.toNat && c.toNat ≤ 0x2070)
    || (0x2074 ≤ c.toNat && c.toNat ≤ 0x2079)
    || (0x2080 ≤ c.toNat && c.toNat ≤ 0x2089)

/-- Embedding of Python `str.isdigit()`: `True` iff the string is non-empty
and every character is a digit character.  In particular it is `False` on
the empty string. -/
def pyIsDigit (s : String) : Bool :=
  !s.data.isEmpty && s.data.all pyDigitChar

/-- Decimal value of a list of ASCII digit characters, most significant
first, as computed by Python `int` on a pure-ASCII-digit string. -/
def natOfDigits (l : List Char) : Nat :=
  l.foldl (fun acc c => 10 * acc + (c.toNat - '0'.toNat)) 0

/-- Fold the decimal values of a run of digit characters; fails on the
first character `int` does not accept as a decimal digit. -/
def decimalValueFoldAux (acc : Nat) : List Char → Option Nat
  | [] => some acc
  | c :: cs =>
    match pyDecimalValue c with
    | some d => decimalValueFoldAux (10 * acc + d) cs
    | none => none

/-- `some n` iff `l` is a non-empty run of decimal digit characters
(`int`-acceptable), with `n` the resulting value. -/
def decimalDigitsValue (l : List Char) : Option Nat :=
  if l.isEmpty then none else decimalValueFoldAux 0 l

/-- Strip leading and trailing whitespace characters, as Python `int` does
before parsing. -/
def stripEnds (l : List Char) : List Char :=
  ((l.dropWhile Char.isWhitespace).reverse.dropWhile Char.isWhitespace).reverse

/-- Embedding of Python `int(s)`: strip surrounding whitespace, accept an
optional sign followed by a non-empty run of decimal (Nd) digits, and fail
(`None`, modelling `ValueError`) otherwise.  In particular it fails on
digit-type characters that are not decimal, such as `²`.  Digit-grouping
underscores, accepted by Python, are not modelled: no claim concerns them
and they cannot occur in an `isdigit` string. -/
def intOfChars (l : List Char) : Option Int :=
  match stripEnds l with
  | '+' :: rest => (decimalDigitsValue rest).map Int.ofNat
  | '-' :: rest => (decimalDigitsValue rest).map (fun n => -(n : Int))
  | rest => (decimalDigitsValue rest).map Int.ofNat

/-- Embedding of Python `int(s)`. -/
def pyInt (s : String) : Option Int :=
  intOfChars s.data

/-- The tagged union produced by identifier resolution (spec §3). -/
inductive Identifier where
  | NumericId (n : Int)
  | Url (s : String)
deriving DecidableEq

/-- Total identifier resolution, from
`Page.from_id(int(page)) if page.isdigit() else Page.from_url(page)`:
a digit-classified token becomes `NumericId` of its `int` value, any other
token becomes `Url` unchanged.  On the digit-classified tokens whose `int`
conversion raises (such as `"²"`) the program has no result; this total
function takes the placeholder value `0` there, and every claim about such
tokens goes through the fallible `resolveOpt` instead. -/
def resolve (token : String) : Identifier :=
  if pyIsDigit token then .NumericId ((pyInt token).getD 0) else .Url token

/-- Fallible resolution: the same expression with the possible failure of
`int` made explicit.  `none` means the `int(page)` call raised. -/
def resolveOpt (token : String) : Option Identifier :=
  if pyIsDigit token then (pyInt token).map .NumericId else some (.Url token)

/-- The characters matched by the class `[A-Z]` under `re.IGNORECASE`:
the ASCII letters plus the extra case-fold equivalences CPython's `re`
applies to this class — U+0131 `ı` (folds with `i`), U+017F `ſ` (folds
with `s`) and U+212A KELVIN SIGN (folds with `k`). -/
def letterClassIC (c : Char) : Bool :=
  ('A' ≤ c && c ≤ 'Z') || ('a' ≤ c && c ≤ 'z')
    || c == '\u0131' || c == '\u017F' || c == '\u212A'

/-- Case-insensitive match of one subject character against a lowercase
ASCII pattern letter under `re.IGNORECASE`, including CPython's extra
case-fold pairs relevant to the letters of `Users`: `ſ` matches `s`. -/
def matchesIC (base c : Char) : Bool :=
  c.toLower == base || (base == 's' && c == '\u017F')

/-- Matcher for the anchored pattern of `_normalize_space_key`:
`^[A-Z]:\Users\` with `re.IGNORECASE`.  Returns `some rest` with the
characters after the matched part when the string starts with a drive
letter, `:`, `\`, `Users` (case-folded), `\`; `none` when it does not. -/
def driveUsersMatch : List Char → Option (List Char)
  | d :: ':' :: '\\' :: u :: s1 :: e1 :: r1 :: s2 :: '\\' :: rest =>
    if letterClassIC d && matchesIC 'u' u && matchesIC 's' s1 && matchesIC 'e' e1
        && matchesIC 'r' r1 && matchesIC 's' s2
    then some rest else none
  | _ => none

/-- Embedding of `_normalize_space_key`: replace the first (and, being
anchored, only possible) occurrence of the drive-letter pattern with a
single `~`; return the key unchanged when the pattern does not match. -/
def normalizeSpaceKey (space_key : String) : String :=
  match driveUsersMatch space_key.data with
  | some rest => ⟨'~' :: rest⟩
  | none => space_key

/-- One call made by the CLI layer to an external collaborator.
`setOutput p` stands for `set_setting("export.output_path", p)`; the other
constructors stand for the `Page`, `Space` and `Organization` constructor
and export calls, a constructed entity being identified by the argument it
was constructed from. -/
inductive Event where
  | setOutput (p : String)
  | pageFromId (n : Int)
  | pageFromUrl (u : String)
  | exportPage (i : Identifier)
  | exportPageWithDescendants (i : Identifier)
  | spaceFromKey (k : String)
  | exportSpace (k : String)
  | orgFromApi
  | exportOrg
deriving DecidableEq

/-- The constructor call that `constructPage` dispatches to. -/
def constructPage : Identifier → Event
  | .NumericId n => .pageFromId n
  | .Url u => .pageFromUrl u

/-- Embedding of `override_output_path_config`: one `set_setting` call when
an output path was given, no call otherwise. -/
def overrideOutputPathConfig : Option String → List Event
  | some p => [.setOutput p]
  | none => []

/-- The calls made for one token of the `pages` command body:
`Page.from_id(int(page)) if page.isdigit() else Page.from_url(page)`
followed by `_page.export()`. -/
def pageTokenEvents (t : String) : List Event :=
  [constructPage (resolve t), .exportPage (resolve t)]

/-- The calls made for one token of the `pages-with-descendants` command
body: same construction, then `_page.export_with_descendants()`. -/
def pageTokenEventsWD (t : String) : List Event :=
  [constructPage (resolve t), .exportPageWithDescendants (resolve t)]

/-- Trace of the `pages` command: apply the output-path override, then for
each token in input order construct the page and export it. -/
def pagesCmd (tokens : List String) (output_path : Option String) : List Event :=
  overrideOutputPathConfig output_path ++ tokens.flatMap pageTokenEvents

/-- Trace of the `pages-with-descendants` command. -/
def pagesWithDescendantsCmd (tokens : List String) (output_path : Option String) : List Event :=
  overrideOutputPathConfig output_path ++ tokens.flatMap pageTokenEventsWD

/-- Trace of the `spaces` command: normalize every key first
(`normalized_space_keys = [_normalize_space_key(key) for key in space_keys]`),
then apply the override, then for each normalized key construct the space
and export it. -/
def spacesCmd (space_keys : List String) (output_path : Option String) : List Event :=
  let normalized := space_keys.map normalizeSpaceKey
  overrideOutputPathConfig output_path
    ++ normalized.flatMap (fun k => [.spaceFromKey k, .exportSpace k])

/-- Trace of the `all-spaces` command: apply the override, construct the
`Organization` from the API and export it. -/
def allSpacesCmd (output_path : Option String) : List Event :=
  overrideOutputPathConfig output_path ++ [.orgFromApi, .exportOrg]

/-- Run a command trace against an oracle `fails` saying which collaborator
calls raise.  Calls execute in order; the first failing call aborts the run:
its effects and every later call are absent from the completed trace and the
flag is `false` (the raised error propagates out of the command, which
catches nothing).  A run with no failing call completes the whole trace with
flag `true`. -/
def runEvents (fails : Event → Bool) : List Event → List Event × Bool
  | [] => ([], true)
  | e :: es =>
    if fails e then ([], false)
    else
      let r := runEvents fails es
      (e :: r.1, r.2)

/-- `true` exactly on the `set_setting` event. -/
def isSetOutput : Event → Bool
  | .setOutput _ => true
  | _ => false

/-- `true` exactly on the full-space export event. -/
def isExportSpace : Event → Bool
  | .exportSpace _ => true
  | _ => false

/-- Effect of one collaborator call on the SettingsStore output-path entry:
only `set_setting("export.output_path", p)` writes it. -/
def applyEvent (s : Option String) : Event → Option String
  | .setOutput p => some p
  | _ => s

/-- SettingsStore output-path entry after a trace, starting from `s0`. -/
def applyTrace (s0 : Option String) (evs : List Event) : Option String :=
  evs.foldl applyEvent s0

/-- One entry of the configuration snapshot: a dotted key, its displayed
value, and whether the entry is secret-bearing (credentials, tokens). -/
structure ConfigEntry where
  key : String
  value : String
  secret : Bool
deriving DecidableEq

/-- Modelled from the spec: `sanitize_config` lives in
`utils/app_data_store`, outside the sources given here; the spec states it
"redacts secrets for display".  The snapshot is modelled as a flat list of
keyed string entries flagged secret or not; sanitization replaces every
secret entry value with a redaction marker and leaves the rest unchanged. -/
def sanitizeConfig (cfg : List ConfigEntry) : List ConfigEntry :=
  cfg.map fun e => if e.secret then ConfigEntry.mk e.key "***" e.secret else e

/-- Modelled from the spec: `json.dumps(..., indent=2)` of the (flat,
string-valued) snapshot: one `"key": "value"` line per entry between a brace
pair. -/
def jsonOfConfig (cfg : List ConfigEntry) : String :=
  "\x7b\n"
    ++ String.intercalate ",\n"
        (cfg.map (fun e => "  \"" ++ e.key ++ "\": \"" ++ e.value ++ "\""))
    ++ "\n\x7d"

/-- One observable action of the `config` command: print a document with
`typer.echo`, or open the interactive configuration menu. -/
inductive OutAction where
  | echo (text : String)
  | configMenu (jump_to : Option String)
deriving DecidableEq

/-- Embedding of the `config` command: with `--show`, print the sanitized
current configuration as JSON inside a fenced code block; otherwise open
the interactive menu, optionally at the requested submenu. -/
def configCmd (jump_to : Option String) (showFlag : Bool)
    (settings : List ConfigEntry) : List OutAction :=
  if showFlag then
    [.echo ("```json\n" ++ jsonOfConfig (sanitizeConfig settings) ++ "\n```")]
  else
    [.configMenu jump_to]

/-! ### Helper lemmas -/

theorem isDigit_eq_false_of_isWhitespace (c : Char) (h : c.isWhitespace = true) :
    c.isDigit = false := by
  simp [Char.isWhitespace] at h
  rcases h with ((rfl | rfl) | rfl) | rfl <;> decide

theorem isWhitespace_eq_false_of_isDigit (c : Char) (h : c.isDigit = true) :
    c.isWhitespace = false := by
  cases hw : c.isWhitespace with
  | false => rfl
  | true => rw [isDigit_eq_false_of_isWhitespace c hw] at h; cases h

theorem dropWhile_ws_of_digits (l : List Char) (h : ∀ c ∈ l, c.isDigit = true) :
    l.dropWhile Char.isWhitespace = l := by
  cases l with
  | nil => rfl
  | cons c cs =>
    have hc : c.isWhitespace = false :=
      isWhitespace_eq_false_of_isDigit c (h c (by simp))
    simp [List.dropWhile, hc]

theorem stripEnds_of_digits (l : List Char) (h : ∀ c ∈ l, c.isDigit = true) :
    stripEnds l = l := by
  unfold stripEnds
  rw [dropWhile_ws_of_digits l h,
    dropWhile_ws_of_digits l.reverse (by intro c hc; exact h c (List.mem_reverse.mp hc)),
    List.reverse_reverse]

theorem pyDecimalValue_of_isDigit (c : Char) (h : c.isDigit = true) :
    pyDecimalValue c = some (c.toNat - '0'.toNat) := by
  unfold pyDecimalValue
  rw [if_pos h]

theorem pyDigitChar_of_isDigit (c : Char) (h : c.isDigit = true) :
    pyDigitChar c = true := by
  unfold pyDigitChar
  rw [pyDecimalValue_of_isDigit c h]
  rfl

theorem pyDigitChar_ascii (c : Char) (h : c.toNat < 128) :
    pyDigitChar c = c.isDigit := by
  cases hd : c.isDigit with
  | true => exact pyDigitChar_of_isDigit c hd
  | false =>
    unfold pyDigitChar pyDecimalValue
    rw [if_neg (by simp [hd])]
    have e1 : decide (0x660 ≤ c.toNat) = false := decide_eq_false (by omega)
    have e2 : decide (0xB2 ≤ c.toNat) = false := decide_eq_false (by omega)
    have e3 : decide (0xB9 ≤ c.toNat) = false := decide_eq_false (by omega)
    have e4 : decide (0x2070 ≤ c.toNat) = false := decide_eq_false (by omega)
    have e5 : decide (0x2074 ≤ c.toNat) = false := decide_eq_false (by omega)
    have e6 : decide (0x2080 ≤ c.toNat) = false := decide_eq_false (by omega)
    simp [e1, e2, e3, e4, e5, e6]

theorem pyDigitChar_of_isWhitespace (c : Char) (h : c.isWhitespace = true) :
    pyDigitChar c = false := by
  simp [Char.isWhitespace] at h
  rcases h with ((rfl | rfl) | rfl) | rfl <;> decide

theorem decimalValueFoldAux_of_digits (l : List Char) (acc : Nat)
    (h : ∀ c ∈ l, c.isDigit = true) :
    decimalValueFoldAux acc l
      = some (l.foldl (fun a c => 10 * a + (c.toNat - '0'.toNat)) acc) := by
  induction l generalizing acc with
  | nil => rfl
  | cons c cs ih =>
    have hc : c.isDigit = true := h c (by simp)
    unfold decimalValueFoldAux
    rw [pyDecimalValue_of_isDigit c hc, List.foldl_cons]
    exact ih (10 * acc + (c.toNat - '0'.toNat)) (fun a ha => h a (by simp [ha]))

theorem decimalDigitsValue_of_digits (l : List Char) (hne : l ≠ [])
    (h : ∀ c ∈ l, c.isDigit = true) :
    decimalDigitsValue l = some (natOfDigits l) := by
  unfold decimalDigitsValue natOfDigits
  rw [if_neg (by simp [hne])]
  exact decimalValueFoldAux_of_digits l 0 h

theorem pyInt_of_ascii_digits (s : String) (hne : s.data ≠ [])
    (hall : ∀ c ∈ s.data, c.isDigit = true) :
    pyInt s = some ((natOfDigits s.data : Nat) : Int) := by
  unfold pyInt intOfChars
  rw [stripEnds_of_digits s.data hall]
  cases hsd : s.data with
  | nil => exact absurd hsd hne
  | cons c cs =>
    have hcd : c.isDigit = true := hall c (by rw [hsd]; simp)
    split
    · next rest heq =>
      injection heq with h1 h2
      rw [h1] at hcd
      exact absurd hcd (by decide)
    · next rest heq =>
      injection heq with h1 h2
      rw [h1] at hcd
      exact absurd hcd (by decide)
    · next rest h1 h2 =>
      rw [← hsd,
        decimalDigitsValue_of_digits s.data (by rw [hsd]; exact List.cons_ne_nil c cs) hall]
      rfl

theorem pyIsDigit_of_ascii_digits (s : String) (hne : s.data ≠ [])
    (hall : ∀ c ∈ s.data, c.isDigit = true) :
    pyIsDigit s = true := by
  unfold pyIsDigit
  have h1 : s.data.isEmpty = false := by
    cases hsd : s.data with
    | nil => exact absurd hsd hne
    | cons c cs => rfl
  have h2 : s.data.all pyDigitChar = true := by
    rw [List.all_eq_true]
    intro c hc
    exact pyDigitChar_of_isDigit c (hall c hc)
  rw [h1, h2]
  rfl

theorem driveUsersMatch_head (c : Char) (l : List Char) (h : letterClassIC c = false) :
    driveUsersMatch (c :: l) = none := by
  unfold driveUsersMatch
  split
  · next d u s1 e1 r1 s2 rest heq =>
    injection heq with h1 h2
    subst h1
    simp [h]
  · rfl

theorem normalizeSpaceKey_idem (s : String) :
    normalizeSpaceKey (normalizeSpaceKey s) = normalizeSpaceKey s := by
  cases h : driveUsersMatch s.data with
  | none => simp [normalizeSpaceKey, h]
  | some rest =>
    have h2 : driveUsersMatch (('~' :: rest : List Char)) = none :=
      driveUsersMatch_head '~' rest (by decide)
    simp [normalizeSpaceKey, h, h2]

theorem runEvents_append_fail (fails : Event → Bool) (xs ys : List Event) (e : Event)
    (hxs : ∀ x ∈ xs, fails x = false) (he : fails e = true) :
    runEvents fails (xs ++ e :: ys) = (xs, false) := by
  induction xs with
  | nil => simp [runEvents, he]
  | cons x xs ih =>
    have hx : fails x = false := hxs x (by simp)
    have ih2 := ih (by intro a ha; exact hxs a (by simp [ha]))
    simp [runEvents, hx, ih2]

theorem pageTokenEvents_not_setOutput (t : String) (e : Event)
    (h : e ∈ pageTokenEvents t) : isSetOutput e = false := by
  unfold pageTokenEvents at h
  cases hr : resolve t <;> rw [hr] at h <;> simp [constructPage] at h <;>
    rcases h with rfl | rfl <;> rfl

theorem pageTokenEventsWD_not_setOutput (t : String) (e : Event)
    (h : e ∈ pageTokenEventsWD t) : isSetOutput e = false := by
  unfold pageTokenEventsWD at h
  cases hr : resolve t <;> rw [hr] at h <;> simp [constructPage] at h <;>
    rcases h with rfl | rfl <;> rfl

theorem flatMap_not_setOutput {α : Type} (f : α → List Event)
    (hf : ∀ a e, e ∈ f a → isSetOutput e = false)
    (l : List α) (e : Event) (h : e ∈ l.flatMap f) : isSetOutput e = false := by
  rw [List.mem_flatMap] at h
  rcases h with ⟨a, ha, he⟩
  exact hf a e he

theorem applyTrace_no_setOutput (s0 : Option String) (evs : List Event)
    (h : ∀ e ∈ evs, isSetOutput e = false) : applyTrace s0 evs = s0 := by
  induction evs with
  | nil => rfl
  | cons e es ih =>
    have he : isSetOutput e = false := h e (by simp)
    have hstep : applyEvent s0 e = s0 := by
      cases e
      case setOutput p => exact Bool.noConfusion he
      all_goals rfl
    unfold applyTrace at ih ⊢
    rw [List.foldl_cons, hstep]
    exact ih (by intro a ha; exact h a (by simp [ha]))

theorem countP_setOutput_zero (evs : List Event)
    (h : ∀ e ∈ evs, isSetOutput e = false) : evs.countP isSetOutput = 0 := by
  rw [List.countP_eq_zero]
  intro a ha
  simp [h a ha]

theorem string_data_ne_nil_of_ne_empty (s : String) (h : s ≠ "") : s.data ≠ [] := by
  intro hd
  apply h
  cases s with
  | mk l =>
    have hl : l = [] := hd
    rw [hl]

/-! ### Claims -/

/-- C1 counterexample: the claim's URL branch fails on the program.  The
token `"٣"` (ARABIC-INDIC DIGIT THREE, U+0663) is non-empty and contains a
character that is not an ASCII digit, so the claim predicts `Url("٣")` and
a `Page.from_url` call — but `"٣".isdigit()` is `True` in Python and
`int("٣") = 3`, so the program invokes `Page.from_id(3)` and never calls
`Page.from_url`. -/
theorem resolve_classification_counterexample :
    ("٣" ≠ "" ∧ (∃ c ∈ "٣".data, c.isDigit = false))
      ∧ resolveOpt "٣" = some (.NumericId 3)
      ∧ resolveOpt "٣" ≠ some (.Url "٣")
      ∧ resolve "٣" = .NumericId 3
      ∧ pageTokenEvents "٣" = [.pageFromId 3, .exportPage (.NumericId 3)] := by
  decide

/-- C1 (amended): for every non-empty token composed only of ASCII digits,
resolution yields `NumericId` of its parsed integer value and
`Page.from_id` is invoked with that integer; for every non-empty token
consisting of ASCII characters with at least one non-digit character,
resolution yields `Url` of the unchanged token and `Page.from_url` is
invoked with it — in both the `pages` and `pages-with-descendants`
commands.  (The URL branch is restricted to ASCII tokens: non-ASCII tokens
such as `"٣"` can be digit-classified by Python's `str.isdigit` and are
then routed to `Page.from_id`.) -/
theorem resolve_classification_amended (s : String) :
    (s ≠ "" → s.data.all Char.isDigit = true →
      resolve s = .NumericId ((natOfDigits s.data : Nat) : Int)
        ∧ pyInt s = some ((natOfDigits s.data : Nat) : Int)
        ∧ pageTokenEvents s
            = [.pageFromId ((natOfDigits s.data : Nat) : Int),
               .exportPage (.NumericId ((natOfDigits s.data : Nat) : Int))]
        ∧ pageTokenEventsWD s
            = [.pageFromId ((natOfDigits s.data : Nat) : Int),
               .exportPageWithDescendants (.NumericId ((natOfDigits s.data : Nat) : Int))])
    ∧ (s ≠ "" → (∀ c ∈ s.data, c.toNat < 128) → (∃ c ∈ s.data, c.isDigit = false) →
      resolve s = .Url s
        ∧ resolveOpt s = some (.Url s)
        ∧ pageTokenEvents s = [.pageFromUrl s, .exportPage (.Url s)]
        ∧ pageTokenEventsWD s = [.pageFromUrl s, .exportPageWithDescendants (.Url s)]) := by
  constructor
  · intro h1 h2
    have hne : s.data ≠ [] := string_data_ne_nil_of_ne_empty s h1
    have hall : ∀ c ∈ s.data, c.isDigit = true := by
      intro c hc
      exact List.all_eq_true.mp h2 c hc
    have hpd : pyIsDigit s = true := pyIsDigit_of_ascii_digits s hne hall
    have hpi : pyInt s = some ((natOfDigits s.data : Nat) : Int) :=
      pyInt_of_ascii_digits s hne hall
    have hres : resolve s = .NumericId ((natOfDigits s.data : Nat) : Int) := by
      unfold resolve
      rw [hpd, hpi]
      rfl
    exact ⟨hres, hpi,
      by simp [pageTokenEvents, hres, constructPage],
      by simp [pageTokenEventsWD, hres, constructPage]⟩
  · intro h1 hascii h2
    have hallpy : s.data.all pyDigitChar = false := by
      rcases h2 with ⟨c, hc, hcd⟩
      cases hA : s.data.all pyDigitChar with
      | false => rfl
      | true =>
        have hpc : pyDigitChar c = true := List.all_eq_true.mp hA c hc
        rw [pyDigitChar_ascii c (hascii c hc), hcd] at hpc
        cases hpc
    have hpd : pyIsDigit s = false := by
      unfold pyIsDigit
      rw [hallpy]
      simp
    have hres : resolve s = .Url s := by
      unfold resolve
      rw [hpd]
      rfl
    have hropt : resolveOpt s = some (.Url s) := by
      unfold resolveOpt
      rw [hpd]
      rfl
    exact ⟨hres, hropt,
      by simp [pageTokenEvents, hres, constructPage],
      by simp [pageTokenEventsWD, hres, constructPage]⟩

/-- C1 witness: the ASCII token `"p42x"` contains non-digits, resolves to
`Url` unchanged without failing, and dispatches to `Page.from_url`. -/
theorem resolve_classification_amended_witness :
    resolve "p42x" = .Url "p42x"
      ∧ resolveOpt "p42x" = some (.Url "p42x")
      ∧ pageTokenEvents "p42x" = [.pageFromUrl "p42x", .exportPage (.Url "p42x")]
      ∧ pageTokenEventsWD "p42x"
          = [.pageFromUrl "p42x", .exportPageWithDescendants (.Url "p42x")] :=
  (resolve_classification_amended "p42x").2 (by decide) (by decide) (by decide)

/-- C3: space-key normalization is idempotent. -/
theorem normalize_space_key_idempotent (s : String) :
    normalizeSpaceKey (normalizeSpaceKey s) = normalizeSpaceKey s :=
  normalizeSpaceKey_idem s

/-- C4 counterexample: resolution is not total on all non-empty tokens.
The non-empty token `"²"` (SUPERSCRIPT TWO, U+00B2) is digit-classified —
`"²".isdigit()` is `True` in Python — yet `int("²")` raises `ValueError`,
so the digit-classified conversion fails. -/
theorem resolve_total_counterexample :
    "²" ≠ "" ∧ pyIsDigit "²" = true ∧ pyInt "²" = none
      ∧ resolveOpt "²" = none := by
  decide

/-- C4 (amended): identifier resolution never fails for any non-empty token
consisting of ASCII characters: the classification raises no error and, on
the digit-classified branch, the `int` conversion succeeds, agreeing with
the total resolution function.  (For non-ASCII tokens the conversion can
raise: `int("²")` raises `ValueError` although `"²".isdigit()` is
`True`.) -/
theorem resolve_total_ascii (s : String) (h1 : s ≠ "")
    (h2 : ∀ c ∈ s.data, c.toNat < 128) :
    resolveOpt s = some (resolve s) := by
  cases hpd : pyIsDigit s with
  | false =>
    unfold resolveOpt resolve
    rw [hpd]
    rfl
  | true =>
    have hne : s.data ≠ [] := string_data_ne_nil_of_ne_empty s h1
    have hallpy : ∀ c ∈ s.data, pyDigitChar c = true := by
      have hpd2 := hpd
      unfold pyIsDigit at hpd2
      simp at hpd2
      exact hpd2.2
    have hall : ∀ c ∈ s.data, c.isDigit = true := by
      intro c hc
      have hpc := hallpy c hc
      rw [pyDigitChar_ascii c (h2 c hc)] at hpc
      exact hpc
    have hpi : pyInt s = some ((natOfDigits s.data : Nat) : Int) :=
      pyInt_of_ascii_digits s hne hall
    unfold resolveOpt resolve
    rw [hpd, hpi]
    rfl

/-- C4 witness: resolution succeeds on the non-empty ASCII token `"123"`. -/
theorem resolve_total_ascii_witness :
    resolveOpt "123" = some (resolve "123") :=
  resolve_total_ascii "123" (by decide) (by decide)

/-- C8: the normalizer maps `C:\Users\jdoe` and `c:\users\jdoe` (the
drive-letter pattern matched case-insensitively, anchored at the start,
replaced by a single tilde) to `~jdoe`, and any string the pattern does not
match, such as `PROJ`, passes through unchanged. -/
theorem normalize_space_key_examples :
    normalizeSpaceKey "C:\\Users\\jdoe" = "~jdoe"
      ∧ normalizeSpaceKey "c:\\users\\jdoe" = "~jdoe"
      ∧ normalizeSpaceKey "PROJ" = "PROJ"
      ∧ (∀ s : String, driveUsersMatch s.data = none → normalizeSpaceKey s = s) := by
  refine ⟨by decide, by decide, by decide, ?_⟩
  intro s h
  simp [normalizeSpaceKey, h]

/-- C8 witness: the pattern is anchored, so an occurrence that is not at the
start of the key is not rewritten. -/
theorem normalize_space_key_examples_witness :
    normalizeSpaceKey " C:\\Users\\jdoe" = " C:\\Users\\jdoe" :=
  normalize_space_key_examples.2.2.2 " C:\\Users\\jdoe" (by decide)

/-- C10: the empty token and every whitespace-only token fail the digit
check and are classified as URLs: `Page.from_url` receives the unchanged
token and `Page.from_id` is never called, in both the `pages` and
`pages-with-descendants` commands. -/
theorem blank_tokens_resolve_to_url (s : String)
    (h : ∀ c ∈ s.data, c.isWhitespace = true) :
    resolve s = .Url s
      ∧ pageTokenEvents s = [.pageFromUrl s, .exportPage (.Url s)]
      ∧ pageTokenEventsWD s = [.pageFromUrl s, .exportPageWithDescendants (.Url s)]
      ∧ (∀ n : Int, Event.pageFromId n ∉ pageTokenEvents s)
      ∧ (∀ n : Int, Event.pageFromId n ∉ pageTokenEventsWD s) := by
  have hpd : pyIsDigit s = false := by
    unfold pyIsDigit
    cases hsd : s.data with
    | nil => rfl
    | cons c cs =>
      have hc : pyDigitChar c = false :=
        pyDigitChar_of_isWhitespace c (h c (by rw [hsd]; simp))
      simp [hc]
  have hres : resolve s = .Url s := by
    unfold resolve
    rw [hpd]
    rfl
  refine ⟨hres, by simp [pageTokenEvents, hres, constructPage],
    by simp [pageTokenEventsWD, hres, constructPage], ?_, ?_⟩
  · intro n
    simp [pageTokenEvents, hres, constructPage]
  · intro n
    simp [pageTokenEventsWD, hres, constructPage]

/-- C10 witness: the single-space token is sent to `Page.from_url`
unchanged. -/
theorem blank_tokens_resolve_to_url_witness :
    resolve " " = .Url " "
      ∧ pageTokenEvents " " = [.pageFromUrl " ", .exportPage (.Url " ")]
      ∧ pageTokenEventsWD " "
          = [.pageFromUrl " ", .exportPageWithDescendants (.Url " ")]
      ∧ (∀ n : Int, Event.pageFromId n ∉ pageTokenEvents " ")
      ∧ (∀ n : Int, Event.pageFromId n ∉ pageTokenEventsWD " ") :=
  blank_tokens_resolve_to_url " " (by decide)

/-- C2: for `pages --output-path /tmp/out 123 456`, the output-path
setting is written exactly once, before any page export, and
`Page.from_id(123)` then `Page.from_id(456)` are invoked in input order,
each immediately followed by its single-page export call. -/
theorem pages_concrete_trace :
    pagesCmd ["123", "456"] (some "/tmp/out")
        = [.setOutput "/tmp/out",
           .pageFromId 123, .exportPage (.NumericId 123),
           .pageFromId 456, .exportPage (.NumericId 456)]
      ∧ (pagesCmd ["123", "456"] (some "/tmp/out")).countP isSetOutput = 1
      ∧ (pagesCmd ["123", "456"] (some "/tmp/out")).head?
          = some (.setOutput "/tmp/out") := by
  refine ⟨by decide, by decide, by decide⟩

/-- C5: no export command catches collaborator errors.  If a command's call
sequence decomposes as completed calls, then a failing call, then the rest,
the run performs exactly the completed prefix (so every export in it,
covering the identifiers before the failing one, has happened), signals
failure, and executes nothing after the failing call — for all four export
commands. -/
theorem export_commands_fail_fast (fails : Event → Bool) (out : Option String)
    (done : List Event) (e : Event) (rest : List Event)
    (hdone : ∀ x ∈ done, fails x = false) (he : fails e = true) :
    (∀ ts : List String, pagesCmd ts out = done ++ e :: rest →
        runEvents fails (pagesCmd ts out) = (done, false))
      ∧ (∀ ts : List String, pagesWithDescendantsCmd ts out = done ++ e :: rest →
          runEvents fails (pagesWithDescendantsCmd ts out) = (done, false))
      ∧ (∀ ks : List String, spacesCmd ks out = done ++ e :: rest →
          runEvents fails (spacesCmd ks out) = (done, false))
      ∧ (allSpacesCmd out = done ++ e :: rest →
          runEvents fails (allSpacesCmd out) = (done, false)) := by
  have key : runEvents fails (done ++ e :: rest) = (done, false) :=
    runEvents_append_fail fails done rest e hdone he
  exact ⟨fun ts hts => by rw [hts]; exact key,
    fun ts hts => by rw [hts]; exact key,
    fun ks hks => by rw [hks]; exact key,
    fun hs => by rw [hs]; exact key⟩

/-- C5 witness: in `pages 123` where the export call for page 123 raises,
the run stops right after the construction call and reports failure. -/
theorem export_commands_fail_fast_witness :
    runEvents (fun ev => decide (ev = Event.exportPage (.NumericId 123)))
        (pagesCmd ["123"] none)
      = ([Event.pageFromId 123], false) :=
  (export_commands_fail_fast
      (fun ev => decide (ev = Event.exportPage (.NumericId 123))) none
      [Event.pageFromId 123] (Event.exportPage (.NumericId 123)) []
      (by decide) (by decide)).1 ["123"] (by decide)

theorem countP_exportSpace_pairs (l : List String) :
    (l.flatMap (fun k =>
        [Event.spaceFromKey (normalizeSpaceKey k),
         Event.exportSpace (normalizeSpaceKey k)])).countP isExportSpace
      = l.length := by
  induction l with
  | nil => rfl
  | cons a l ih =>
    rw [List.flatMap_cons, List.countP_append, ih]
    simp [List.countP_cons, isExportSpace]
    omega

/-- C6: the `spaces` command normalizes every key before any `Space` is
constructed: its trace is the override followed, for each key in input
order, by `Space.from_key` on the normalized key and exactly one full-space
export; every key a `Space` is constructed from is already in normal
form. -/
theorem spaces_normalizes_before_construct (keys : List String) (out : Option String) :
    spacesCmd keys out
        = overrideOutputPathConfig out
          ++ keys.flatMap (fun k =>
              [.spaceFromKey (normalizeSpaceKey k), .exportSpace (normalizeSpaceKey k)])
      ∧ (∀ k : String,
          Event.spaceFromKey k ∈ spacesCmd keys out → normalizeSpaceKey k = k)
      ∧ (spacesCmd keys out).countP isExportSpace = keys.length := by
  have h1 : spacesCmd keys out
      = overrideOutputPathConfig out
        ++ keys.flatMap (fun k =>
            [Event.spaceFromKey (normalizeSpaceKey k),
             Event.exportSpace (normalizeSpaceKey k)]) := by
    show overrideOutputPathConfig out
        ++ (keys.map normalizeSpaceKey).flatMap
            (fun k => [Event.spaceFromKey k, Event.exportSpace k])
      = _
    rw [List.flatMap_map]
  refine ⟨h1, ?_, ?_⟩
  · intro k hk
    rw [h1, List.mem_append] at hk
    rcases hk with hk | hk
    · cases out with
      | none => cases hk
      | some p =>
        simp [overrideOutputPathConfig] at hk
    · rw [List.mem_flatMap] at hk
      rcases hk with ⟨a, ha, hmem⟩
      simp at hmem
      rw [hmem]
      exact normalizeSpaceKey_idem a
  · rw [h1, List.countP_append, countP_exportSpace_pairs]
    cases out with
    | none => simp [overrideOutputPathConfig]
    | some p => simp [overrideOutputPathConfig, List.countP_cons, isExportSpace]

/-- C6 witness: a Windows-mangled key is repaired before construction, and
the key `Space.from_key` receives is already normalized. -/
theorem spaces_normalizes_before_construct_witness :
    normalizeSpaceKey "~jdoe" = "~jdoe" :=
  (spaces_normalizes_before_construct ["C:\\Users\\jdoe"] none).2.1 "~jdoe" (by decide)

theorem pages_body_not_setOutput (ts : List String) :
    ∀ e ∈ ts.flatMap pageTokenEvents, isSetOutput e = false :=
  fun e he =>
    flatMap_not_setOutput pageTokenEvents
      (fun a x hx => pageTokenEvents_not_setOutput a x hx) ts e he

theorem pagesWD_body_not_setOutput (ts : List String) :
    ∀ e ∈ ts.flatMap pageTokenEventsWD, isSetOutput e = false :=
  fun e he =>
    flatMap_not_setOutput pageTokenEventsWD
      (fun a x hx => pageTokenEventsWD_not_setOutput a x hx) ts e he

theorem spaces_body_not_setOutput (ks : List String) :
    ∀ e ∈ (ks.map normalizeSpaceKey).flatMap
        (fun k => [Event.spaceFromKey k, Event.exportSpace k]),
      isSetOutput e = false := by
  intro e he
  refine flatMap_not_setOutput _ ?_ _ e he
  intro a x hx
  simp at hx
  rcases hx with rfl | rfl <;> rfl

theorem allSpaces_body_not_setOutput :
    ∀ e ∈ [Event.orgFromApi, Event.exportOrg], isSetOutput e = false := by
  intro e he
  simp at he
  rcases he with rfl | rfl <;> rfl

theorem override_some_frame (p : String) (body : List Event) (s0 : Option String)
    (h : ∀ e ∈ body, isSetOutput e = false) :
    (Event.setOutput p :: body).countP isSetOutput = 1
      ∧ (Event.setOutput p :: body).head? = some (.setOutput p)
      ∧ applyTrace s0 (Event.setOutput p :: body) = some p := by
  refine ⟨?_, rfl, ?_⟩
  · rw [List.countP_cons, countP_setOutput_zero body h]
    rfl
  · unfold applyTrace
    rw [List.foldl_cons]
    exact applyTrace_no_setOutput (some p) body h

/-- C7: for every export command, when no output path is given no
`set_setting` call occurs and the stored output path is unchanged; when an
output path is given it is written exactly once, as the very first call
(before any export), and is never reset afterwards within the invocation,
so the written value is the one left in the store. -/
theorem output_path_override_frame (ts ks : List String) (s0 : Option String) :
    (applyTrace s0 (pagesCmd ts none) = s0
        ∧ (pagesCmd ts none).countP isSetOutput = 0)
      ∧ (applyTrace s0 (pagesWithDescendantsCmd ts none) = s0
        ∧ (pagesWithDescendantsCmd ts none).countP isSetOutput = 0)
      ∧ (applyTrace s0 (spacesCmd ks none) = s0
        ∧ (spacesCmd ks none).countP isSetOutput = 0)
      ∧ (applyTrace s0 (allSpacesCmd none) = s0
        ∧ (allSpacesCmd none).countP isSetOutput = 0)
      ∧ (∀ p : String,
          ((pagesCmd ts (some p)).countP isSetOutput = 1
            ∧ (pagesCmd ts (some p)).head? = some (.setOutput p)
            ∧ applyTrace s0 (pagesCmd ts (some p)) = some p)
          ∧ ((pagesWithDescendantsCmd ts (some p)).countP isSetOutput = 1
            ∧ (pagesWithDescendantsCmd ts (some p)).head? = some (.setOutput p)
            ∧ applyTrace s0 (pagesWithDescendantsCmd ts (some p)) = some p)
          ∧ ((spacesCmd ks (some p)).countP isSetOutput = 1
            ∧ (spacesCmd ks (some p)).head? = some (.setOutput p)
            ∧ applyTrace s0 (spacesCmd ks (some p)) = some p)
          ∧ ((allSpacesCmd (some p)).countP isSetOutput = 1
            ∧ (allSpacesCmd (some p)).head? = some (.setOutput p)
            ∧ applyTrace s0 (allSpacesCmd (some p)) = some p)) := by
  refine ⟨⟨applyTrace_no_setOutput s0 _ (pages_body_not_setOutput ts),
      countP_setOutput_zero _ (pages_body_not_setOutput ts)⟩,
    ⟨applyTrace_no_setOutput s0 _ (pagesWD_body_not_setOutput ts),
      countP_setOutput_zero _ (pagesWD_body_not_setOutput ts)⟩,
    ⟨applyTrace_no_setOutput s0 _ (spaces_body_not_setOutput ks),
      countP_setOutput_zero _ (spaces_body_not_setOutput ks)⟩,
    ⟨applyTrace_no_setOutput s0 _ allSpaces_body_not_setOutput,
      countP_setOutput_zero _ allSpaces_body_not_setOutput⟩,
    ?_⟩
  intro p
  exact ⟨override_some_frame p _ s0 (pages_body_not_setOutput ts),
    override_some_frame p _ s0 (pagesWD_body_not_setOutput ts),
    override_some_frame p _ s0 (spaces_body_not_setOutput ks),
    override_some_frame p _ s0 allSpaces_body_not_setOutput⟩

/-- C9: `config --show` emits exactly one document — the sanitized current
configuration as JSON in a fenced code block — and opens no interactive
session; every secret entry of the printed snapshot is redacted, so no
secret value of the unsanitized snapshot (one that is not reused as a
non-secret value and differs from the marker) appears among the printed
values. -/
theorem config_show_sanitized (jump_to : Option String) (settings : List ConfigEntry) :
    configCmd jump_to true settings
        = [.echo ("```json\n" ++ jsonOfConfig (sanitizeConfig settings) ++ "\n```")]
      ∧ (∀ j : Option String, OutAction.configMenu j ∉ configCmd jump_to true settings)
      ∧ (∀ e ∈ sanitizeConfig settings, e.secret = true → e.value = "***")
      ∧ (∀ v : String, v ≠ "***" →
          (∀ e ∈ settings, e.secret = false → e.value ≠ v) →
          ∀ e ∈ sanitizeConfig settings, e.value ≠ v) := by
  refine ⟨rfl, ?_, ?_, ?_⟩
  · intro j hj
    simp [configCmd] at hj
  · intro e he
    unfold sanitizeConfig at he
    rw [List.mem_map] at he
    rcases he with ⟨e0, he0, rfl⟩
    cases hs : e0.secret with
    | true => intro hsec; simp [hs]
    | false => intro hsec; rw [if_neg (by simp [hs])] at hsec; rw [hs] at hsec; cases hsec
  · intro v hv hnon e he
    unfold sanitizeConfig at he
    rw [List.mem_map] at he
    rcases he with ⟨e0, he0, rfl⟩
    cases hs : e0.secret with
    | true =>
      rw [if_pos (by simp [hs])]
      intro hval
      exact hv hval.symm
    | false =>
      rw [if_neg (by simp [hs])]
      exact hnon e0 he0 hs

/-- C9 witness: with a secret API token and a non-secret output path in the
snapshot, the printed snapshot does not contain the token value. -/
theorem config_show_sanitized_witness :
    ∀ e ∈ sanitizeConfig
        [ConfigEntry.mk "auth.confluence.api_token" "hunter2" true,
         ConfigEntry.mk "export.output_path" "/srv/out" false],
      e.value ≠ "hunter2" :=
  (config_show_sanitized none
      [ConfigEntry.mk "auth.confluence.api_token" "hunter2" true,
       ConfigEntry.mk "export.output_path" "/srv/out" false]).2.2.2
    "hunter2" (by decide) (by decide)

end CME
